import Mathlib

/-!
Shallow embedding of `src/Credential_System.py` (University Credential
Validation System).

Modelling conventions:
* Python scalar values that can sit in a DataFrame cell are modelled by
  `PyVal`: strings, floats (as rationals), ints, `None`, and the float `NaN`
  that pandas inserts for a missing key.
* A `University`'s `students_df` (a pandas DataFrame indexed by the
  `student_id` column, `drop=False`, rows in insertion order because
  `pd.concat` appends) is modelled as the ordered list of its rows.
* Wall-clock quantities (`timestamp`, `processing_time`) and file I/O
  (CSV load/save, Excel export) are outside the embedding; the pure record
  content and control flow are modelled exactly.
* `datetime.now().strftime(..)` is modelled by an explicit `today` argument
  to the operations that read the clock.
-/

/-- Python value that can appear in a DataFrame cell or be passed to `add`. -/
inductive PyVal where
  | vStr (s : String)
  | vFloat (q : ℚ)
  | vInt (n : ℤ)
  | vNone
  | vNan
deriving DecidableEq

/-- Accumulate a decimal digit string (helper for the Python numeric parsers). -/
def digitsAux : List Char → ℕ → Option ℕ
  | [], acc => some acc
  | c :: cs, acc => if c.isDigit then digitsAux cs (acc * 10 + (c.toNat - 48)) else none

/-- Value of a nonempty all-digit character list, `none` otherwise. -/
def digitsVal? (l : List Char) : Option ℕ :=
  if l.isEmpty then none else digitsAux l 0

/-- Python `int(str)` on the decimal forms used by the system: optional sign
followed by digits.  (Surrounding whitespace, underscores and other exotic
accepted forms are not modelled.) -/
def parseInt? (s : String) : Option ℤ :=
  match s.data with
  | '-' :: rest => (digitsVal? rest).map (fun n => -(n : ℤ))
  | '+' :: rest => (digitsVal? rest).map (fun n => (n : ℤ))
  | l => (digitsVal? l).map (fun n => (n : ℤ))

/-- Unsigned decimal literal with optional fractional part, e.g. `3`, `3.5`,
`3.`, `.5`; at least one digit overall. -/
def parseUnsignedFloat? (l : List Char) : Option ℚ :=
  let ip := l.takeWhile (·.isDigit)
  match l.dropWhile (·.isDigit) with
  | [] => (digitsVal? ip).map (fun n => (n : ℚ))
  | '.' :: frac =>
    if frac.all (·.isDigit) && !(ip.isEmpty && frac.isEmpty) then
      match digitsAux ip 0, digitsAux frac 0 with
      | some i, some f => some ((i : ℚ) + (f : ℚ) / ((10 : ℚ) ^ frac.length))
      | _, _ => none
    else none
  | _ => none

/-- Python `float(str)` on the decimal forms used by the system.
(Exponents, `inf`, `nan`, underscores and whitespace are not modelled.) -/
def parseFloat? (s : String) : Option ℚ :=
  match s.data with
  | '-' :: rest => (parseUnsignedFloat? rest).map (fun q => -q)
  | '+' :: rest => parseUnsignedFloat? rest
  | l => parseUnsignedFloat? l

/-- Truncation toward zero, the behaviour of Python `int()` on a float. -/
def ratTrunc (q : ℚ) : ℤ := q.num.tdiv (q.den : ℤ)

/-- Python built-in `float(x)`: `some` cell on success, `none` when it raises
(`TypeError` on `None`, `ValueError` on a non-numeric string). -/
def pyFloat : PyVal → Option PyVal
  | .vFloat q => some (.vFloat q)
  | .vNan => some .vNan
  | .vInt n => some (.vFloat (n : ℚ))
  | .vStr s => (parseFloat? s).map .vFloat
  | .vNone => none

/-- Python built-in `int(x)`: `some` cell on success, `none` when it raises
(non-finite float, `None`, non-integral string).  `int(x)` on a multi-row
pandas selection also raises; that case is handled at the call site. -/
def pyInt : PyVal → Option PyVal
  | .vInt n => some (.vInt n)
  | .vFloat q => some (.vInt (ratTrunc q))
  | .vStr s => (parseInt? s).map .vInt
  | .vNone => none
  | .vNan => none

/-- Numeric value of a cell, as pandas comparisons and aggregations see it
(`NaN`, `None` and strings are non-numeric). -/
def cgpaQ? : PyVal → Option ℚ
  | .vFloat q => some q
  | .vInt n => some ((n : ℤ) : ℚ)
  | _ => none

/-- Row of a `students_df` DataFrame (one student record). -/
structure Row where
  student_id : PyVal
  name : PyVal
  university : PyVal
  degree : PyVal
  cgpa : PyVal
  graduation_year : PyVal
  enrollment_date : PyVal
deriving DecidableEq

/-- University: institution name plus its student table in insertion order. -/
structure University where
  name : String
  students : List Row
deriving DecidableEq

/-- University.add_student: builds the row (coercing `float(cgpa)` and
`int(graduation_year)`), appends it via `pd.concat`, and returns `True`; any
coercion failure is caught, nothing is inserted, and `False` is returned. -/
def add_student (u : University) (today sid nm degree : String)
    (cgpa year : PyVal) : Bool × University :=
  match pyFloat cgpa, pyInt year with
  | some c, some y =>
    (true, { u with students := u.students ++
      [⟨.vStr sid, .vStr nm, .vStr u.name, .vStr degree, c, y, .vStr today⟩] })
  | _, _ => (false, u)

/-- University.verify_student: `student_id in df.index` then `df.loc[sid]`.
With exactly one matching row `.loc` yields that row and the result dict
copies its fields, re-coercing `int(graduation_year)`.  With several matching
rows (duplicated key) `.loc` yields a DataFrame and `int` on a multi-element
Series raises `TypeError`; the `except` clause turns any such failure into
`None`. -/
def verify_student (u : University) (sid : String) : Option Row :=
  match u.students.filter (fun r => r.student_id == PyVal.vStr sid) with
  | [r] =>
    match pyInt r.graduation_year with
    | some y => some { r with graduation_year := y }
    | none => none
  | _ => none

/-- Descending comparison on the `cgpa` column used by `nlargest`. -/
def topLe (a b : Row) : Bool :=
  decide ((cgpaQ? b.cgpa).getD 0 ≤ (cgpaQ? a.cgpa).getD 0)

/-- University.get_top_students: `df.nlargest(n, 'cgpa')`.  Rows whose key is
missing (`NaN`) are dropped by `nlargest`; the remaining rows are selected in
descending `cgpa` order with ties kept in row order (`keep='first'`), and the
first `n` are returned. -/
def get_top_students (u : University) (n : ℕ) : List Row :=
  ((u.students.filter (fun r => (cgpaQ? r.cgpa).isSome)).mergeSort topLe).take n

/-- Round half to even at two decimals on an exact rational, modelling
Python/numpy `round(x, 2)` on the values it is applied to here. -/
def round2 (q : ℚ) : ℚ :=
  let h : ℚ := q * 100
  let f : ℤ := ⌊h⌋
  let r : ℚ := h - (f : ℚ)
  (if r < 1/2 then (f : ℚ)
   else if 1/2 < r then ((f + 1 : ℤ) : ℚ)
   else if 2 ∣ f then (f : ℚ) else ((f + 1 : ℤ) : ℚ)) / 100

/-- Largest element of a rational list (0 on the empty list, which callers
guard against). -/
def maxQ : List ℚ → ℚ
  | [] => 0
  | x :: xs => xs.foldl max x

/-- Smallest element of a rational list (0 on the empty list). -/
def minQ : List ℚ → ℚ
  | [] => 0
  | x :: xs => xs.foldl min x

/-- Median as pandas computes it on the non-missing values: middle element of
the sorted list, or the average of the two middle elements. -/
def medianQ (l : List ℚ) : ℚ :=
  let s := l.mergeSort (fun a b => decide (a ≤ b))
  let n := s.length
  if n = 0 then 0
  else if n % 2 = 1 then s.getD (n / 2) 0
  else (s.getD (n / 2 - 1) 0 + s.getD (n / 2) 0) / 2

/-- Value stored in the statistics dictionary.  `stdV vals` stands for
`round(Series.std(), 2)` on the listed values: the sample standard deviation
(denominator `n - 1`, `NaN` when fewer than two values); its square root is
irrational in general so it is kept symbolically. -/
inductive StatVal where
  | intV (n : ℤ)
  | ratV (q : ℚ)
  | nanV
  | stdV (vals : List ℚ)
deriving DecidableEq

/-- Count of distinct non-missing cells, pandas `Series.nunique()`. -/
def nuniqueCells (l : List PyVal) : ℕ :=
  ((l.filter (fun c => !(c == PyVal.vNan) && !(c == PyVal.vNone))).dedup).length

/-- Comparison `cell >= k` as pandas evaluates it on a column: true exactly on
numeric cells at least `k` (comparisons with missing values are false). -/
def cellGE (c : PyVal) (k : ℚ) : Bool :=
  match cgpaQ? c with
  | some q => decide (k ≤ q)
  | none => false

/-- University.get_statistics.  On an empty table it returns the literal
zero dictionary of the source (which has no `std_dev_cgpa` entry); otherwise
the pandas aggregates over the `cgpa` column, which skip missing values
(`skipna=True`) and are `NaN` when no value remains. -/
def get_statistics (u : University) : List (String × StatVal) :=
  if u.students.isEmpty then
    [("total_students", .intV 0),
     ("average_cgpa", .intV 0),
     ("median_cgpa", .intV 0),
     ("highest_cgpa", .intV 0),
     ("lowest_cgpa", .intV 0),
     ("degrees_offered", .intV 0),
     ("recent_graduates", .intV 0)]
  else
    let vals := (u.students.map Row.cgpa).filterMap cgpaQ?
    [("total_students", .intV (u.students.length : ℤ)),
     ("average_cgpa",
       if vals.isEmpty then .nanV else .ratV (round2 (vals.sum / (vals.length : ℚ)))),
     ("median_cgpa", if vals.isEmpty then .nanV else .ratV (round2 (medianQ vals))),
     ("highest_cgpa", if vals.isEmpty then .nanV else .ratV (round2 (maxQ vals))),
     ("lowest_cgpa", if vals.isEmpty then .nanV else .ratV (round2 (minQ vals))),
     ("std_dev_cgpa", .stdV vals),
     ("degrees_offered", .intV (nuniqueCells (u.students.map Row.degree) : ℤ)),
     ("recent_graduates",
       .intV ((u.students.filter (fun r => cellGE r.graduation_year 2024)).length : ℤ))]

/-- One element of the `students_list` argument of `add_students_bulk`: a
Python dict that may or may not carry each of the five schema keys (records
are assumed to carry no extra keys, as in all calls in the source). -/
structure BulkRec where
  student_id : Option PyVal
  name : Option PyVal
  degree : Option PyVal
  cgpa : Option PyVal
  graduation_year : Option PyVal
deriving DecidableEq

/-- A DataFrame built from a list of dicts has a column for a key exactly when
some dict carries that key. -/
def colExists (recs : List BulkRec) (f : BulkRec → Option PyVal) : Bool :=
  recs.any (fun r => (f r).isSome)

/-- Cell obtained from an optional dict entry: a missing key becomes `NaN`. -/
def cellOf (o : Option PyVal) : PyVal := o.getD PyVal.vNan

/-- Pandas `.astype(float)` on one cell: missing values stay `NaN`, `None`
coerces to `NaN`, numbers coerce, a non-numeric string raises. -/
def astypeFloat? : PyVal → Option PyVal
  | .vNan => some .vNan
  | .vNone => some .vNan
  | .vFloat q => some (.vFloat q)
  | .vInt n => some (.vFloat (n : ℚ))
  | .vStr s => (parseFloat? s).map .vFloat

/-- Pandas `.astype(int)` on one cell: raises on `NaN`/`None`
("cannot convert non-finite values to integer") and on non-integral strings;
floats truncate toward zero. -/
def astypeInt? : PyVal → Option PyVal
  | .vNan => none
  | .vNone => none
  | .vFloat q => some (.vInt (ratTrunc q))
  | .vInt n => some (.vInt n)
  | .vStr s => (parseInt? s).map .vInt

/-- Map a fallible function over a list, failing if any element fails
(the behaviour of a column-wide `astype`). -/
def mapOpt (f : α → Option β) : List α → Option (List β)
  | [] => some []
  | x :: xs =>
    match f x, mapOpt f xs with
    | some y, some ys => some (y :: ys)
    | _, _ => none

/-- Row inserted for one bulk record, given its coerced cgpa and year cells.
`university` and `enrollment_date` are assigned to the whole column; `name`
and `degree` are never touched, so a missing key stays a `NaN` cell. -/
def bulkRow (uniName today : String) (rec : BulkRec) (cg yr : PyVal) : Row :=
  ⟨cellOf rec.student_id, cellOf rec.name, .vStr uniName, cellOf rec.degree,
    cg, yr, .vStr today⟩

/-- Zip the records with their coerced cgpa and year columns. -/
def zipRows (uniName today : String) :
    List BulkRec → List PyVal → List PyVal → List Row
  | r :: rs, c :: cs, y :: ys =>
    bulkRow uniName today r c y :: zipRows uniName today rs cs ys
  | _, _, _ => []

/-- University.add_students_bulk, following the source's sequence of
DataFrame steps, each of which can raise and abort the whole call before the
final `pd.concat`:
`new_df['cgpa']` (KeyError when no record carries the key), its
`.astype(float)`, `new_df['graduation_year']` and its `.astype(int)`, and
`set_index('student_id')` (KeyError when no record carries the key).
On success all rows are appended; on any failure nothing is inserted and
`False` is returned. -/
def add_students_bulk (u : University) (today : String) (recs : List BulkRec) :
    Bool × University :=
  if colExists recs (fun r => r.cgpa) = false then (false, u)
  else
    match mapOpt (fun r => astypeFloat? (cellOf r.cgpa)) recs with
    | none => (false, u)
    | some cgs =>
      if colExists recs (fun r => r.graduation_year) = false then (false, u)
      else
        match mapOpt (fun r => astypeInt? (cellOf r.graduation_year)) recs with
        | none => (false, u)
        | some yrs =>
          if colExists recs (fun r => r.student_id) = false then (false, u)
          else (true, { u with students := u.students ++ zipRows u.name today recs cgs yrs })

/-- Rows a successful bulk call appends, expressed directly per record. -/
def bulkRowsOf (uniName today : String) (recs : List BulkRec) : List Row :=
  recs.map (fun r =>
    bulkRow uniName today r ((astypeFloat? (cellOf r.cgpa)).getD .vNan)
      ((astypeInt? (cellOf r.graduation_year)).getD .vNan))

/-- Exact condition under which `add_students_bulk` succeeds: the cgpa,
graduation_year and student_id columns must exist, and every cgpa cell must
float-coerce and every graduation_year cell must int-coerce.  The `name` and
`degree` keys play no role. -/
def bulkOk (recs : List BulkRec) : Bool :=
  colExists recs (fun r => r.cgpa) &&
  (mapOpt (fun r => astypeFloat? (cellOf r.cgpa)) recs).isSome &&
  colExists recs (fun r => r.graduation_year) &&
  (mapOpt (fun r => astypeInt? (cellOf r.graduation_year)) recs).isSome &&
  colExists recs (fun r => r.student_id)

/-- Entry of the validation history DataFrame.  `timestamp` and
`processing_time` (wall-clock readings) are outside the embedding;
the `'N/A'` sentinel written for an unresolved request is modelled as
`none` in the `university` field. -/
structure LogEntry where
  request_id : ℤ
  student_id : String
  status : String
  university : Option String
  requester : String
deriving DecidableEq

/-- State of a ValidationSystem: the registered universities in registration
order, the FIFO queue of `(student_id, requester)` pairs, the two counters,
and the history rows in append order. -/
structure VState where
  universities : List University
  queue : List (String × String)
  total_requests : ℕ
  successful_validations : ℕ
  history : List LogEntry
deriving DecidableEq

/-- ValidationSystem.__init__ : no universities, empty queue, zero counters,
empty history. -/
def initState : VState := ⟨[], [], 0, 0, []⟩

/-- ValidationSystem.register_university: appends to the ordered list. -/
def register_university (s : VState) (u : University) : VState :=
  { s with universities := s.universities ++ [u] }

/-- ValidationSystem.request_validation: enqueue one request and increment
`total_requests` immediately. -/
def request_validation (s : VState) (sid requester : String) : VState :=
  { s with queue := s.queue ++ [(sid, requester)],
           total_requests := s.total_requests + 1 }

/-- ValidationSystem.request_validations_bulk: the source loops over the ids,
enqueueing each and incrementing the counter per id. -/
def request_validations_bulk (s : VState) (sids : List String)
    (requester : String) : VState :=
  sids.foldl (fun st sid => request_validation st sid requester) s

/-- Search across all universities, in registration order, stopping at the
first whose `verify_student` returns a credential (the `break` in the
processing loop); yields that university's name and the credential. -/
def findUni : List University → String → Option (String × Row)
  | [], _ => none
  | u :: rest, sid =>
    match verify_student u sid with
    | some r => some (u.name, r)
    | none => findUni rest sid

/-- Body of the `while self.validation_queue` loop: pop the front request,
search the universities, bump `successful_validations` on a hit, and append
one history row whose `request_id` is `total_requests - len(queue)` after the
pop.  `total_requests` is never written inside the loop. -/
def runQueue (unis : List University) (total : ℕ) :
    List (String × String) → ℕ → List LogEntry → ℕ × List LogEntry
  | [], succ, hist => (succ, hist)
  | (sid, req) :: rest, succ, hist =>
    let res := findUni unis sid
    let entry : LogEntry :=
      { request_id := (total : ℤ) - (rest.length : ℤ),
        student_id := sid,
        status := if res.isSome then "Success" else "Not Found",
        university := res.map Prod.fst,
        requester := req }
    runQueue unis total rest (if res.isSome then succ + 1 else succ)
      (hist ++ [entry])

/-- ValidationSystem.process_validations: an empty queue is a no-op (early
return before the loop and before the batch summary); otherwise the loop
drains the queue in FIFO order. -/
def process_validations (s : VState) : VState :=
  if s.queue.isEmpty then s
  else
    let out := runQueue s.universities s.total_requests s.queue
      s.successful_validations s.history
    { s with queue := [], successful_validations := out.1, history := out.2 }

/-- History rows one draining pass appends for a given queue, with
`total_requests` frozen at its value when processing starts. -/
def outcomesFor (unis : List University) (total : ℕ) :
    List (String × String) → List LogEntry
  | [] => []
  | (sid, req) :: rest =>
    { request_id := (total : ℤ) - (rest.length : ℤ),
      student_id := sid,
      status := if (findUni unis sid).isSome then "Success" else "Not Found",
      university := (findUni unis sid).map Prod.fst,
      requester := req } :: outcomesFor unis total rest

/-- One submission call: a single request or a bulk list. -/
inductive SubmitOp where
  | single (sid requester : String)
  | bulk (sids : List String) (requester : String)

/-- Apply one submission call to the state. -/
def applySubmit (s : VState) : SubmitOp → VState
  | .single sid req => request_validation s sid req
  | .bulk sids req => request_validations_bulk s sids req

/-- Apply a sequence of submission calls in order. -/
def submitAll (ops : List SubmitOp) (s : VState) : VState :=
  ops.foldl applySubmit s

/-- Requests a sequence of submission calls enqueues, in submission order. -/
def flattenOps : List SubmitOp → List (String × String)
  | [] => []
  | .single sid req :: rest => (sid, req) :: flattenOps rest
  | .bulk sids req :: rest => sids.map (fun sid => (sid, req)) ++ flattenOps rest

/-- Operations an execution can perform on a ValidationSystem.
`analytics` and `exportReport` read the state and produce output but write
no field; `mutateStores` stands for external code adding students directly
to registered universities between rounds (the stores are shared references,
so any replacement of the universities list over-approximates it). -/
inductive SysOp where
  | register (u : University)
  | submit (sid requester : String)
  | submitBulk (sids : List String) (requester : String)
  | process
  | analytics
  | exportReport
  | mutateStores (unis : List University)

/-- Transition function of the orchestrator. -/
def stepOp (s : VState) : SysOp → VState
  | .register u => register_university s u
  | .submit sid req => request_validation s sid req
  | .submitBulk sids req => request_validations_bulk s sids req
  | .process => process_validations s
  | .analytics => s
  | .exportReport => s
  | .mutateStores unis => { s with universities := unis }

/-- States reachable from a fresh system by any sequence of operations. -/
inductive Reachable : VState → Prop
  | init : Reachable initState
  | step {s : VState} (h : Reachable s) (op : SysOp) : Reachable (stepOp s op)

/-- Success-rate line of ValidationSystem.get_analytics: printed (and its
division evaluated) only under `if self.total_requests > 0`; `none` models
the skipped line. -/
def analytics_success_rate (s : VState) : Option ℚ :=
  if 0 < s.total_requests then
    some ((s.successful_validations : ℚ) / (s.total_requests : ℚ) * 100)
  else none

/-- Success-rate value of the System Summary sheet in
ValidationSystem.export_comprehensive_report:
`round((succ/total*100) if total > 0 else 0, 2)`. -/
def report_success_rate (s : VState) : ℚ :=
  round2 (if 0 < s.total_requests then
    (s.successful_validations : ℚ) / (s.total_requests : ℚ) * 100
  else 0)

/-- Number of requests in a queue that some registered university resolves. -/
def countFound (unis : List University) (q : List (String × String)) : ℕ :=
  (q.filter (fun p => (findUni unis p.1).isSome)).length

/-- Concrete record used by the witnesses. -/
def rowS1 : Row :=
  ⟨.vStr "S1", .vStr "Ada", .vStr "BUniv", .vStr "CS", .vFloat (7/2),
    .vInt 2023, .vStr "2024-01-01"⟩

/-- Registered first, holds no students. -/
def uniA : University := ⟨"AUniv", []⟩

/-- Registered second, holds the student `S1`. -/
def uniB : University := ⟨"BUniv", [rowS1]⟩

/-- Row with cgpa 3 (tied with `rowT3`). -/
def rowT1 : Row :=
  ⟨.vStr "T1", .vStr "Tess", .vStr "TUniv", .vStr "CS", .vFloat 3, .vInt 2023, .vStr "d"⟩

/-- Row with the top cgpa 4. -/
def rowT2 : Row :=
  ⟨.vStr "T2", .vStr "Theo", .vStr "TUniv", .vStr "EE", .vFloat 4, .vInt 2024, .vStr "d"⟩

/-- Row with cgpa 3 (tied with `rowT1`, inserted later). -/
def rowT3 : Row :=
  ⟨.vStr "T3", .vStr "Thea", .vStr "TUniv", .vStr "ME", .vFloat 3, .vInt 2024, .vStr "d"⟩

/-- Store with a cgpa tie, for the top-n witness. -/
def uniT : University := ⟨"TUniv", [rowT1, rowT2, rowT3]⟩

/-- Bulk record that carries every required key except `name`. -/
def recNoName : BulkRec :=
  ⟨some (.vStr "S1"), none, some (.vStr "CS"), some (.vFloat (7/2)),
    some (.vInt 2023)⟩

/-- Fresh empty store used by several witnesses. -/
def uniEmpty : University := ⟨"EUniv", []⟩

/-! Helper lemmas about the embedding. -/

/-- Projection of history rows back to the requests they were produced for. -/
theorem outcomesFor_proj (unis : List University) (total : ℕ) :
    ∀ q : List (String × String),
    (outcomesFor unis total q).map (fun e => (e.student_id, e.requester)) = q := by
  intro q
  induction q with
  | nil => rfl
  | cons p rest ih =>
    obtain ⟨sid, req⟩ := p
    simp [outcomesFor, ih]

/-- Final value of `successful_validations` after one draining pass. -/
theorem runQueue_fst (unis : List University) (total : ℕ) :
    ∀ (q : List (String × String)) (succ : ℕ) (hist : List LogEntry),
    (runQueue unis total q succ hist).1 = succ + countFound unis q := by
  intro q
  induction q with
  | nil => intro succ hist; simp [runQueue, countFound]
  | cons p rest ih =>
    intro succ hist
    obtain ⟨sid, req⟩ := p
    simp only [runQueue, ih]
    cases h : (findUni unis sid).isSome
    · simp [h, countFound, List.filter_cons]
    · simp [h, countFound, List.filter_cons]
      omega

/-- History rows appended by one draining pass, in dequeue order. -/
theorem runQueue_snd (unis : List University) (total : ℕ) :
    ∀ (q : List (String × String)) (succ : ℕ) (hist : List LogEntry),
    (runQueue unis total q succ hist).2 = hist ++ outcomesFor unis total q := by
  intro q
  induction q with
  | nil => intro succ hist; simp [runQueue, outcomesFor]
  | cons p rest ih =>
    intro succ hist
    obtain ⟨sid, req⟩ := p
    simp only [runQueue, ih, outcomesFor]
    simp

/-- Effect of a bulk submission on each field of the state. -/
theorem request_validations_bulk_spec :
    ∀ (sids : List String) (s : VState) (req : String),
    request_validations_bulk s sids req =
      ⟨s.universities, s.queue ++ sids.map (fun sid => (sid, req)),
        s.total_requests + sids.length, s.successful_validations, s.history⟩ := by
  intro sids
  induction sids with
  | nil => intro s req; simp [request_validations_bulk]
  | cons sid rest ih =>
    intro s req
    have h1 : request_validations_bulk s (sid :: rest) req =
        request_validations_bulk (request_validation s sid req) rest req := rfl
    rw [h1, ih]
    simp [request_validation, VState.mk.injEq]
    omega

/-- Effect of a sequence of submission calls on each field of the state. -/
theorem submitAll_spec :
    ∀ (ops : List SubmitOp) (s : VState),
    submitAll ops s =
      ⟨s.universities, s.queue ++ flattenOps ops,
        s.total_requests + (flattenOps ops).length, s.successful_validations,
        s.history⟩ := by
  intro ops
  induction ops with
  | nil => intro s; simp [submitAll, flattenOps]
  | cons op rest ih =>
    intro s
    have h1 : submitAll (op :: rest) s = submitAll rest (applySubmit s op) := rfl
    rw [h1, ih]
    cases op with
    | single sid req =>
      simp [applySubmit, request_validation, flattenOps, VState.mk.injEq]
      omega
    | bulk sids req =>
      show _ = VState.mk _ _ _ _ _
      rw [show applySubmit s (SubmitOp.bulk sids req) =
        request_validations_bulk s sids req from rfl,
        request_validations_bulk_spec]
      simp [flattenOps, VState.mk.injEq]
      omega

/-- Queue-counter invariant: pending plus resolved never exceeds submitted. -/
theorem reachable_inv {s : VState} (h : Reachable s) :
    s.successful_validations + s.queue.length ≤ s.total_requests := by
  induction h with
  | init => simp [initState]
  | @step t hs op ih =>
    cases op with
    | register u => simpa [stepOp, register_university] using ih
    | submit sid req =>
      simp [stepOp, request_validation]
      omega
    | submitBulk sids req =>
      simp [stepOp, request_validations_bulk_spec]
      omega
    | process =>
      simp only [stepOp, process_validations]
      by_cases hq : t.queue = []
      · simpa [hq] using ih
      · have h1 := runQueue_fst t.universities t.total_requests t.queue
          t.successful_validations t.history
        have h2 : countFound t.universities t.queue ≤ t.queue.length :=
          List.length_filter_le _ _
        simp [hq, h1]
        omega
    | analytics => simpa [stepOp] using ih
    | exportReport => simpa [stepOp] using ih
    | mutateStores unis => simpa [stepOp] using ih

/-- Filtering a prefix of a list yields a prefix of the filtered list. -/
theorem filter_take_prefix {α : Type} (l : List α) (p : α → Bool) (n : ℕ) :
    ∃ t, l.filter p = (l.take n).filter p ++ t :=
  ⟨(l.drop n).filter p, by rw [← List.filter_append, List.take_append_drop]⟩

/-- Transitivity of the descending cgpa comparison. -/
theorem topLe_trans : ∀ a b c : Row,
    topLe a b = true → topLe b c = true → topLe a c = true := by
  intro a b c hab hbc
  simp only [topLe, decide_eq_true_eq] at *
  exact le_trans hbc hab

/-- Totality of the descending cgpa comparison. -/
theorem topLe_total : ∀ a b : Row, (topLe a b || topLe b a) = true := by
  intro a b
  simp only [topLe, Bool.or_eq_true, decide_eq_true_eq]
  exact le_total _ _

/-- Stability of the sort underlying `nlargest`: rows carrying any one fixed
cgpa value appear in the sorted list exactly as they appear in the table. -/
theorem mergeSort_filter_eq_of_const (l : List Row) (q : ℚ) :
    (l.mergeSort topLe).filter (fun r => r.cgpa == PyVal.vFloat q) =
      l.filter (fun r => r.cgpa == PyVal.vFloat q) := by
  have hkey : ∀ r ∈ l.filter (fun r => r.cgpa == PyVal.vFloat q),
      r.cgpa = PyVal.vFloat q := by
    intro r hr
    have := (List.mem_filter.mp hr).2
    exact eq_of_beq this
  have hpair : (l.filter (fun r => r.cgpa == PyVal.vFloat q)).Pairwise
      (fun a b => topLe a b = true) := by
    apply List.pairwise_of_forall_mem_list
    intro a ha b hb
    simp only [topLe, decide_eq_true_eq, hkey a ha, hkey b hb]
    simp [cgpaQ?]
  have hsub : (l.filter (fun r => r.cgpa == PyVal.vFloat q)).Sublist
      (l.mergeSort topLe) :=
    List.sublist_mergeSort topLe_trans topLe_total hpair (List.filter_sublist l)
  have hself : (l.filter (fun r => r.cgpa == PyVal.vFloat q)).filter
      (fun r => r.cgpa == PyVal.vFloat q) =
      l.filter (fun r => r.cgpa == PyVal.vFloat q) :=
    List.filter_eq_self.mpr (fun a ha => (List.mem_filter.mp ha).2)
  have hsubf : (l.filter (fun r => r.cgpa == PyVal.vFloat q)).Sublist
      ((l.mergeSort topLe).filter (fun r => r.cgpa == PyVal.vFloat q)) := by
    have := hsub.filter (fun r => r.cgpa == PyVal.vFloat q)
    rwa [hself] at this
  have hperm : ((l.mergeSort topLe).filter (fun r => r.cgpa == PyVal.vFloat q)).Perm
      (l.filter (fun r => r.cgpa == PyVal.vFloat q)) :=
    (List.mergeSort_perm l topLe).filter _
  exact ((hsubf.eq_of_length hperm.length_eq.symm)).symm

/-- A column-wide `astype` fails as soon as one cell fails to coerce. -/
theorem mapOpt_eq_none_of_mem {α β : Type} {f : α → Option β} :
    ∀ {xs : List α} {x : α}, x ∈ xs → f x = none → mapOpt f xs = none := by
  intro xs
  induction xs with
  | nil => intro x hx; cases hx
  | cons a rest ih =>
    intro x hx hfx
    rcases List.mem_cons.mp hx with rfl | hmem
    · cases h2 : mapOpt f rest <;> simp [mapOpt, hfx, h2]
    · cases h1 : f a <;> simp [mapOpt, h1, ih hmem hfx]

/-- On the success path, the zipped rows are the per-record rows. -/
theorem zipRows_of_mapOpt (nm today : String) :
    ∀ (recs : List BulkRec) (cgs yrs : List PyVal),
    mapOpt (fun r => astypeFloat? (cellOf r.cgpa)) recs = some cgs →
    mapOpt (fun r => astypeInt? (cellOf r.graduation_year)) recs = some yrs →
    zipRows nm today recs cgs yrs = bulkRowsOf nm today recs := by
  intro recs
  induction recs with
  | nil =>
    intro cgs yrs h1 h2
    simp only [mapOpt, Option.some.injEq] at h1 h2
    subst h1; subst h2
    rfl
  | cons r rest ih =>
    intro cgs yrs h1 h2
    simp only [mapOpt] at h1 h2
    cases hc : astypeFloat? (cellOf r.cgpa) <;> rw [hc] at h1
    · simp at h1
    cases hcs : mapOpt (fun r => astypeFloat? (cellOf r.cgpa)) rest <;>
      rw [hcs] at h1
    · simp at h1
    cases hy : astypeInt? (cellOf r.graduation_year) <;> rw [hy] at h2
    · simp at h2
    cases hys : mapOpt (fun r => astypeInt? (cellOf r.graduation_year)) rest <;>
      rw [hys] at h2
    · simp at h2
    simp only [Option.some.injEq] at h1 h2
    subst h1; subst h2
    simp [zipRows, bulkRowsOf, hc, hy, ih _ _ hcs hys]

/-- Closed form of `add_students_bulk`: success exactly on `bulkOk`, with all
rows appended on success and the store untouched on failure. -/
theorem bulk_run (u : University) (today : String) (recs : List BulkRec) :
    add_students_bulk u today recs =
      (if bulkOk recs then
        (true, { u with students := u.students ++ bulkRowsOf u.name today recs })
      else (false, u)) := by
  unfold add_students_bulk bulkOk
  cases h1 : colExists recs (fun r => r.cgpa)
  · simp
  · cases h2 : mapOpt (fun r => astypeFloat? (cellOf r.cgpa)) recs with
    | none => simp
    | some cgs =>
      cases h3 : colExists recs (fun r => r.graduation_year)
      · simp
      · cases h4 : mapOpt (fun r => astypeInt? (cellOf r.graduation_year)) recs with
        | none => simp
        | some yrs =>
          cases h5 : colExists recs (fun r => r.student_id)
          · simp
          · simp [zipRows_of_mapOpt u.name today recs cgs yrs h2 h4]

/-- The result-dict construction fails on any multi-row selection, so a
duplicated key makes `verify_student` return `None`. -/
theorem verify_none_of_two {u : University} {sid : String}
    (h : 2 ≤ (u.students.filter (fun r => r.student_id == PyVal.vStr sid)).length) :
    verify_student u sid = none := by
  cases hL : u.students.filter (fun r => r.student_id == PyVal.vStr sid) with
  | nil => rw [hL] at h; simp at h
  | cons a t =>
    cases t with
    | nil => rw [hL] at h; simp at h
    | cons b t2 => simp [verify_student, hL]

/-! Claim theorems. -/

/-- C1: every sequence of validation requests, submitted singly or in bulk,
is enqueued in submission order; `process_validations` then drains the queue
completely and appends one outcome per request to the history, in exactly
the submission order, whatever the registered universities resolve. -/
theorem claim_C1_fifo_order (unis : List University) (tr sv : ℕ)
    (hist : List LogEntry) (ops : List SubmitOp) :
    (submitAll ops ⟨unis, [], tr, sv, hist⟩).queue = flattenOps ops ∧
    (process_validations (submitAll ops ⟨unis, [], tr, sv, hist⟩)).queue = [] ∧
    (process_validations (submitAll ops ⟨unis, [], tr, sv, hist⟩)).history =
      hist ++ outcomesFor unis
        (submitAll ops ⟨unis, [], tr, sv, hist⟩).total_requests
        (flattenOps ops) ∧
    (outcomesFor unis (submitAll ops ⟨unis, [], tr, sv, hist⟩).total_requests
        (flattenOps ops)).map (fun e => (e.student_id, e.requester)) =
      flattenOps ops := by
  rw [submitAll_spec]
  refine ⟨by simp, ?_, ?_, outcomesFor_proj unis _ (flattenOps ops)⟩
  · simp only [process_validations]
    by_cases hq : flattenOps ops = [] <;> simp [hq]
  · simp only [process_validations]
    by_cases hq : flattenOps ops = []
    · simp [hq, outcomesFor]
    · simp only [List.nil_append]
      rw [if_neg (by simpa using hq)]
      exact runQueue_snd unis _ (flattenOps ops) sv hist

/-- C2: `findUni` probes the registered universities in registration order
and stops at the first whose lookup resolves the id: a `some` result names
exactly that university (all earlier ones miss, later ones are not
consulted), and the result is `none` precisely when every registered
university misses. -/
theorem claim_C2_search_order (unis : List University) (sid : String) :
    (∀ nm r, findUni unis sid = some (nm, r) →
      ∃ pre u post, unis = pre ++ u :: post ∧ nm = u.name ∧
        verify_student u sid = some r ∧
        ∀ v ∈ pre, verify_student v sid = none) ∧
    (findUni unis sid = none ↔ ∀ u ∈ unis, verify_student u sid = none) := by
  induction unis with
  | nil =>
    refine ⟨fun nm r h => by simp [findUni] at h, ?_⟩
    simp [findUni]
  | cons u rest ih =>
    cases hv : verify_student u sid with
    | some r0 =>
      constructor
      · intro nm r h
        simp only [findUni, hv, Option.some.injEq, Prod.mk.injEq] at h
        exact ⟨[], u, rest, by simp, h.1.symm, by rw [hv, h.2], by simp⟩
      · constructor
        · intro h
          simp [findUni, hv] at h
        · intro hall
          have := hall u (List.mem_cons_self u rest)
          rw [this] at hv
          cases hv
    | none =>
      constructor
      · intro nm r h
        simp only [findUni, hv] at h
        obtain ⟨pre, u', post, heq, hnm, hver, hpre⟩ := ih.1 nm r h
        refine ⟨u :: pre, u', post, by rw [heq]; rfl, hnm, hver, ?_⟩
        intro v hvm
        rcases List.mem_cons.mp hvm with rfl | hmem
        · exact hv
        · exact hpre v hmem
      · simp only [findUni, hv]
        constructor
        · intro h v hvm
          rcases List.mem_cons.mp hvm with rfl | hmem
          · exact hv
          · exact ih.2.mp h v hmem
        · intro hall
          exact ih.2.mpr (fun v hvm => hall v (List.mem_cons_of_mem u hvm))

/-- Witness for C2: with `uniA` (no students) registered before `uniB`
(holding `S1`), the search resolves `S1` at `uniB`, and the decomposition the
theorem promises is realised with `uniA` among the probed-and-missed
universities. -/
theorem claim_C2_witness :
    findUni [uniA, uniB] "S1" = some ("BUniv", rowS1) ∧
    ∃ pre u post, [uniA, uniB] = pre ++ u :: post ∧ "BUniv" = u.name ∧
      verify_student u "S1" = some rowS1 ∧
      ∀ v ∈ pre, verify_student v "S1" = none :=
  ⟨rfl, (claim_C2_search_order [uniA, uniB] "S1").1 "BUniv" rowS1 rfl⟩

/-- C3 (code bug): on an empty store `get_statistics` returns the literal
zero dictionary, so every numeric statistic it contains is present and zero —
but the `std_dev_cgpa` key is missing altogether (the claim, and
`get_analytics`, which reads `stats['std_dev_cgpa']` unconditionally, expect
it to be present and zero). -/
theorem claim_C3_empty_stats (u : University) (h : u.students = []) :
    (get_statistics u).lookup "std_dev_cgpa" = none ∧
    (get_statistics u).lookup "total_students" = some (.intV 0) ∧
    (get_statistics u).lookup "average_cgpa" = some (.intV 0) ∧
    (get_statistics u).lookup "median_cgpa" = some (.intV 0) ∧
    (get_statistics u).lookup "highest_cgpa" = some (.intV 0) ∧
    (get_statistics u).lookup "lowest_cgpa" = some (.intV 0) ∧
    (get_statistics u).lookup "degrees_offered" = some (.intV 0) ∧
    (get_statistics u).lookup "recent_graduates" = some (.intV 0) := by
  have hs : get_statistics u =
      [("total_students", .intV 0),
       ("average_cgpa", .intV 0),
       ("median_cgpa", .intV 0),
       ("highest_cgpa", .intV 0),
       ("lowest_cgpa", .intV 0),
       ("degrees_offered", .intV 0),
       ("recent_graduates", .intV 0)] := by
    rw [get_statistics, if_pos (by simp [h])]
  rw [hs]
  refine ⟨rfl, rfl, rfl, rfl, rfl, rfl, rfl, rfl⟩

/-- Witness for C3 at the concrete empty store. -/
theorem claim_C3_witness :
    (get_statistics uniEmpty).lookup "std_dev_cgpa" = none ∧
    (get_statistics uniEmpty).lookup "total_students" = some (.intV 0) ∧
    (get_statistics uniEmpty).lookup "average_cgpa" = some (.intV 0) ∧
    (get_statistics uniEmpty).lookup "median_cgpa" = some (.intV 0) ∧
    (get_statistics uniEmpty).lookup "highest_cgpa" = some (.intV 0) ∧
    (get_statistics uniEmpty).lookup "lowest_cgpa" = some (.intV 0) ∧
    (get_statistics uniEmpty).lookup "degrees_offered" = some (.intV 0) ∧
    (get_statistics uniEmpty).lookup "recent_graduates" = some (.intV 0) :=
  claim_C3_empty_stats uniEmpty rfl

/-- C4: adding a fresh id and looking it up round-trips every field — the
returned record carries exactly the id, name, degree, numeric cgpa and
integer graduation year that were passed, the store's institution name, and
the enrollment date the store assigned at insertion time. -/
theorem claim_C4_roundtrip (u : University) (today sid nm degree : String)
    (cgpa year : PyVal) (c : ℚ) (y : ℤ)
    (hc : pyFloat cgpa = some (PyVal.vFloat c))
    (hy : pyInt year = some (PyVal.vInt y))
    (habs : u.students.filter (fun r => r.student_id == PyVal.vStr sid) = []) :
    (add_student u today sid nm degree cgpa year).1 = true ∧
    verify_student (add_student u today sid nm degree cgpa year).2 sid =
      some ⟨.vStr sid, .vStr nm, .vStr u.name, .vStr degree, .vFloat c,
        .vInt y, .vStr today⟩ := by
  have hadd : add_student u today sid nm degree cgpa year =
      (true, { u with students := u.students ++
        [⟨.vStr sid, .vStr nm, .vStr u.name, .vStr degree, .vFloat c,
          .vInt y, .vStr today⟩] }) := by
    unfold add_student
    rw [hc, hy]
  rw [hadd]
  refine ⟨rfl, ?_⟩
  have hrow : (u.students ++
      [(⟨.vStr sid, .vStr nm, .vStr u.name, .vStr degree, .vFloat c,
        .vInt y, .vStr today⟩ : Row)]).filter
      (fun r => r.student_id == PyVal.vStr sid) =
      [⟨.vStr sid, .vStr nm, .vStr u.name, .vStr degree, .vFloat c,
        .vInt y, .vStr today⟩] := by
    rw [List.filter_append, habs]
    simp
  simp [verify_student, hrow, pyInt]

/-- Witness for C4 on a fresh empty store. -/
theorem claim_C4_witness :
    (add_student uniEmpty "2024-05-01" "S7" "Niki" "CS" (.vFloat 3)
      (.vInt 2025)).1 = true ∧
    verify_student (add_student uniEmpty "2024-05-01" "S7" "Niki" "CS"
      (.vFloat 3) (.vInt 2025)).2 "S7" =
      some ⟨.vStr "S7", .vStr "Niki", .vStr "EUniv", .vStr "CS", .vFloat 3,
        .vInt 2025, .vStr "2024-05-01"⟩ :=
  claim_C4_roundtrip uniEmpty "2024-05-01" "S7" "Niki" "CS" (.vFloat 3)
    (.vInt 2025) 3 2025 rfl rfl rfl

/-- C5: on a store whose records all carry a numeric cgpa (the data model's
invariant), `get_top_students u n` has length `min n (store size)`, is sorted
by cgpa descending, and is tie-stable: the rows carrying any one cgpa value
appear as a prefix of those rows in store-iteration order. -/
theorem claim_C5_top_n (u : University) (n : ℕ)
    (hnum : ∀ r ∈ u.students, ∃ q : ℚ, r.cgpa = PyVal.vFloat q) :
    (get_top_students u n).length = min n u.students.length ∧
    (get_top_students u n).Pairwise
      (fun a b => (cgpaQ? b.cgpa).getD 0 ≤ (cgpaQ? a.cgpa).getD 0) ∧
    ∀ q : ℚ, ∃ t, u.students.filter (fun r => r.cgpa == PyVal.vFloat q) =
      (get_top_students u n).filter (fun r => r.cgpa == PyVal.vFloat q) ++ t := by
  have hfil : u.students.filter (fun r => (cgpaQ? r.cgpa).isSome) = u.students :=
    List.filter_eq_self.mpr (fun r hr => by
      obtain ⟨q, hq⟩ := hnum r hr
      simp [cgpaQ?, hq])
  unfold get_top_students
  rw [hfil]
  refine ⟨?_, ?_, ?_⟩
  · rw [List.length_take, List.length_mergeSort]
  · have hs := List.sorted_mergeSort topLe_trans topLe_total u.students
    have ht : (List.take n (u.students.mergeSort topLe)).Pairwise
        (fun a b => topLe a b = true) :=
      List.Pairwise.sublist (List.take_sublist n _) hs
    exact ht.imp (fun hab => of_decide_eq_true hab)
  · intro q
    obtain ⟨t, ht⟩ := filter_take_prefix (u.students.mergeSort topLe)
      (fun r => r.cgpa == PyVal.vFloat q) n
    refine ⟨t, ?_⟩
    rw [← mergeSort_filter_eq_of_const u.students q]
    exact ht

/-- Witness for C5 on the concrete tied store `uniT`. -/
theorem claim_C5_witness :
    (get_top_students uniT 2).length = min 2 uniT.students.length ∧
    ∃ t, uniT.students.filter (fun r => r.cgpa == PyVal.vFloat 3) =
      (get_top_students uniT 2).filter (fun r => r.cgpa == PyVal.vFloat 3) ++ t := by
  have hnum : ∀ r ∈ uniT.students, ∃ q : ℚ, r.cgpa = PyVal.vFloat q := by
    intro r hr
    have hr' : r = rowT1 ∨ r = rowT2 ∨ r = rowT3 := by simpa [uniT] using hr
    rcases hr' with rfl | rfl | rfl
    · exact ⟨3, rfl⟩
    · exact ⟨4, rfl⟩
    · exact ⟨3, rfl⟩
  exact ⟨(claim_C5_top_n uniT 2 hnum).1, (claim_C5_top_n uniT 2 hnum).2.2 3⟩

/-- C6: an `add` whose cgpa does not float-coerce or whose year does not
int-coerce reports failure without raising and leaves the store unchanged. -/
theorem claim_C6_add_failure (u : University) (today sid nm degree : String)
    (cgpa year : PyVal)
    (h : pyFloat cgpa = none ∨ pyInt year = none) :
    (add_student u today sid nm degree cgpa year).1 = false ∧
    (add_student u today sid nm degree cgpa year).2 = u := by
  rcases h with h | h
  · cases hy : pyInt year <;> simp [add_student, h, hy]
  · cases hc : pyFloat cgpa <;> simp [add_student, h, hc]

/-- Witness for C6: `float(None)` raises, so the add fails and the store is
untouched. -/
theorem claim_C6_witness :
    (pyFloat PyVal.vNone = none ∨ pyInt PyVal.vNone = none) ∧
    (add_student uniEmpty "d" "S1" "Ann" "CS" PyVal.vNone (PyVal.vInt 2024)).1 =
      false ∧
    (add_student uniEmpty "d" "S1" "Ann" "CS" PyVal.vNone (PyVal.vInt 2024)).2 =
      uniEmpty :=
  ⟨Or.inl rfl,
    claim_C6_add_failure uniEmpty "d" "S1" "Ann" "CS" PyVal.vNone
      (PyVal.vInt 2024) (Or.inl rfl)⟩

/-- C7 counterexample: a one-record batch whose record is structurally
missing the required `name` key does not fail — the call reports success and
the record is inserted (with a `NaN` name cell), contradicting the claim
that any missing required field fails the whole batch with nothing inserted. -/
theorem claim_C7_counterexample :
    recNoName.name = none ∧
    (add_students_bulk uniEmpty "2024-01-01" [recNoName]).1 = true ∧
    (add_students_bulk uniEmpty "2024-01-01" [recNoName]).2.students =
      [⟨.vStr "S1", .vNan, .vStr "EUniv", .vStr "CS", .vFloat (7/2),
        .vInt 2023, .vStr "2024-01-01"⟩] :=
  ⟨rfl, rfl, rfl⟩

/-- C7 (amended): `add_students_bulk` is atomic — it succeeds exactly when
`bulkOk` holds (the cgpa, graduation_year and student_id columns exist and
every cgpa/graduation_year cell coerces; the `name` and `degree` keys play no
role), in which case every record is inserted; otherwise it reports failure
without raising and inserts nothing.  A record missing `graduation_year`
does fail the whole batch. -/
theorem claim_C7_bulk_atomicity (u : University) (today : String)
    (recs : List BulkRec) :
    ((add_students_bulk u today recs).1 = bulkOk recs) ∧
    (bulkOk recs = true →
      (add_students_bulk u today recs).2.students =
        u.students ++ bulkRowsOf u.name today recs ∧
      (bulkRowsOf u.name today recs).length = recs.length) ∧
    (bulkOk recs = false → (add_students_bulk u today recs).2 = u) ∧
    ((∃ r ∈ recs, r.graduation_year = none) → bulkOk recs = false) := by
  have hrun := bulk_run u today recs
  refine ⟨?_, ?_, ?_, ?_⟩
  · rw [hrun]
    cases h : bulkOk recs <;> simp [h]
  · intro h
    rw [hrun]
    simp [h, bulkRowsOf]
  · intro h
    rw [hrun]
    simp [h]
  · rintro ⟨r, hr, hnone⟩
    have hcell : astypeInt? (cellOf r.graduation_year) = none := by
      rw [hnone]
      rfl
    have hm := mapOpt_eq_none_of_mem
      (f := fun r => astypeInt? (cellOf r.graduation_year)) hr hcell
    simp [bulkOk, hm]

/-- Witness for C7's amended theorem: the no-name batch satisfies `bulkOk`
and all its rows are appended. -/
theorem claim_C7_witness :
    bulkOk [recNoName] = true ∧
    (add_students_bulk uniEmpty "2024-01-01" [recNoName]).2.students =
      uniEmpty.students ++ bulkRowsOf "EUniv" "2024-01-01" [recNoName] :=
  ⟨rfl, ((claim_C7_bulk_atomicity uniEmpty "2024-01-01" [recNoName]).2.1 rfl).1⟩

/-- C8: in any reachable state with no submitted requests, the analytics
success-rate line is skipped (its division is never evaluated), the report's
success-rate value is the guarded 0, the queue is necessarily empty, and
`process_validations` takes its no-op early return (so the batch-summary
division is not reached either). -/
theorem claim_C8_no_div_by_zero (s : VState) (hr : Reachable s)
    (h0 : s.total_requests = 0) :
    analytics_success_rate s = none ∧ report_success_rate s = 0 ∧
    s.queue = [] ∧ process_validations s = s := by
  have hq : s.queue = [] := by
    have hinv := reachable_inv hr
    rw [h0] at hinv
    have hlen : s.queue.length = 0 := by omega
    exact List.length_eq_zero.mp hlen
  refine ⟨?_, ?_, hq, ?_⟩
  · simp [analytics_success_rate, h0]
  · norm_num [report_success_rate, h0, round2]
  · simp [process_validations, hq]

/-- Witness for C8 at the freshly initialised system. -/
theorem claim_C8_witness :
    analytics_success_rate initState = none ∧
    report_success_rate initState = 0 ∧
    initState.queue = [] ∧ process_validations initState = initState :=
  claim_C8_no_div_by_zero initState Reachable.init rfl

/-- C9 counterexample: after two successful adds with the same id both
entries are present (two matching rows), but `verify_student` returns `None`
— the error path, not a matching record as the claim states. -/
theorem claim_C9_counterexample :
    (add_student uniEmpty "d1" "S1" "Ann" "CS" (.vFloat 3) (.vInt 2020)).1 =
      true ∧
    (add_student (add_student uniEmpty "d1" "S1" "Ann" "CS" (.vFloat 3)
      (.vInt 2020)).2 "d2" "S1" "Bob" "EE" (.vFloat 4) (.vInt 2021)).1 = true ∧
    ((add_student (add_student uniEmpty "d1" "S1" "Ann" "CS" (.vFloat 3)
      (.vInt 2020)).2 "d2" "S1" "Bob" "EE" (.vFloat 4)
      (.vInt 2021)).2.students.filter
        (fun r => r.student_id == PyVal.vStr "S1")).length = 2 ∧
    verify_student (add_student (add_student uniEmpty "d1" "S1" "Ann" "CS"
      (.vFloat 3) (.vInt 2020)).2 "d2" "S1" "Bob" "EE" (.vFloat 4)
      (.vInt 2021)).2 "S1" = none :=
  ⟨rfl, rfl, rfl, rfl⟩

/-- C9 (amended): two successful adds with the same id both insert — the
matching-row count grows by exactly two — but the subsequent lookup returns
`None`: the duplicated key makes the `.loc` selection multi-row, the integer
coercion of its year column raises, and the handler reports `None`. -/
theorem claim_C9_duplicate_lookup (u : University)
    (d1 d2 sid n1 n2 g1 g2 : String) (cg1 cg2 yr1 yr2 : PyVal)
    (h1 : (pyFloat cg1).isSome) (h2 : (pyInt yr1).isSome)
    (h3 : (pyFloat cg2).isSome) (h4 : (pyInt yr2).isSome) :
    (add_student u d1 sid n1 g1 cg1 yr1).1 = true ∧
    (add_student (add_student u d1 sid n1 g1 cg1 yr1).2 d2 sid n2 g2 cg2
      yr2).1 = true ∧
    ((add_student (add_student u d1 sid n1 g1 cg1 yr1).2 d2 sid n2 g2 cg2
      yr2).2.students.filter (fun r => r.student_id == PyVal.vStr sid)).length =
      (u.students.filter (fun r => r.student_id == PyVal.vStr sid)).length + 2 ∧
    verify_student (add_student (add_student u d1 sid n1 g1 cg1 yr1).2 d2 sid
      n2 g2 cg2 yr2).2 sid = none := by
  obtain ⟨c1, hc1⟩ := Option.isSome_iff_exists.mp h1
  obtain ⟨y1, hy1⟩ := Option.isSome_iff_exists.mp h2
  obtain ⟨c2, hc2⟩ := Option.isSome_iff_exists.mp h3
  obtain ⟨y2, hy2⟩ := Option.isSome_iff_exists.mp h4
  have hadd1 : add_student u d1 sid n1 g1 cg1 yr1 =
      (true, { u with students := u.students ++
        [⟨.vStr sid, .vStr n1, .vStr u.name, .vStr g1, c1, y1, .vStr d1⟩] }) := by
    unfold add_student
    rw [hc1, hy1]
  have hadd2 : add_student
      ({ u with students := u.students ++
        [⟨.vStr sid, .vStr n1, .vStr u.name, .vStr g1, c1, y1, .vStr d1⟩] })
      d2 sid n2 g2 cg2 yr2 =
      (true, { u with students := (u.students ++
        [⟨.vStr sid, .vStr n1, .vStr u.name, .vStr g1, c1, y1, .vStr d1⟩]) ++
        [⟨.vStr sid, .vStr n2, .vStr u.name, .vStr g2, c2, y2, .vStr d2⟩] }) := by
    unfold add_student
    rw [hc2, hy2]
  have hlen : (((u.students ++
      [(⟨.vStr sid, .vStr n1, .vStr u.name, .vStr g1, c1, y1, .vStr d1⟩ : Row)]) ++
      [(⟨.vStr sid, .vStr n2, .vStr u.name, .vStr g2, c2, y2, .vStr d2⟩ : Row)]).filter
        (fun r => r.student_id == PyVal.vStr sid)).length =
      (u.students.filter (fun r => r.student_id == PyVal.vStr sid)).length + 2 := by
    rw [List.filter_append, List.filter_append]
    simp
  refine ⟨?_, ?_, ?_, ?_⟩
  · rw [hadd1]
  · simp [hadd1, hadd2]
  · simp only [hadd1, hadd2]
    exact hlen
  · simp only [hadd1, hadd2]
    apply verify_none_of_two
    rw [show ({ u with students := (u.students ++
        [(⟨.vStr sid, .vStr n1, .vStr u.name, .vStr g1, c1, y1, .vStr d1⟩ : Row)]) ++
        [(⟨.vStr sid, .vStr n2, .vStr u.name, .vStr g2, c2, y2, .vStr d2⟩ : Row)] } :
        University).students = (u.students ++
        [(⟨.vStr sid, .vStr n1, .vStr u.name, .vStr g1, c1, y1, .vStr d1⟩ : Row)]) ++
        [(⟨.vStr sid, .vStr n2, .vStr u.name, .vStr g2, c2, y2, .vStr d2⟩ : Row)]
      from rfl, hlen]
    omega

/-- Witness for C9's amended theorem on a fresh store. -/
theorem claim_C9_witness :
    (add_student uniEmpty "d1" "S9" "Ann" "CS" (.vFloat 3) (.vInt 2020)).1 =
      true ∧
    (add_student (add_student uniEmpty "d1" "S9" "Ann" "CS" (.vFloat 3)
      (.vInt 2020)).2 "d2" "S9" "Bob" "EE" (.vFloat 4) (.vInt 2021)).1 = true ∧
    ((add_student (add_student uniEmpty "d1" "S9" "Ann" "CS" (.vFloat 3)
      (.vInt 2020)).2 "d2" "S9" "Bob" "EE" (.vFloat 4)
      (.vInt 2021)).2.students.filter
        (fun r => r.student_id == PyVal.vStr "S9")).length =
      (uniEmpty.students.filter
        (fun r => r.student_id == PyVal.vStr "S9")).length + 2 ∧
    verify_student (add_student (add_student uniEmpty "d1" "S9" "Ann" "CS"
      (.vFloat 3) (.vInt 2020)).2 "d2" "S9" "Bob" "EE" (.vFloat 4)
      (.vInt 2021)).2 "S9" = none :=
  claim_C9_duplicate_lookup uniEmpty "d1" "d2" "S9" "Ann" "Bob" "CS" "EE"
    (.vFloat 3) (.vFloat 4) (.vInt 2020) (.vInt 2021) rfl rfl rfl rfl

/-- C10: `successful_validations` never exceeds `total_requests` in any
reachable state; every operation leaves both counters non-decreasing;
a single submit adds exactly one to `total_requests` (and nothing to
`successful_validations`), a bulk submit adds the number of enqueued ids;
and one processing pass adds at most one success per dequeued request while
leaving `total_requests` unchanged. -/
theorem claim_C10_counters :
    (∀ s, Reachable s → s.successful_validations ≤ s.total_requests) ∧
    (∀ (s : VState) (op : SysOp),
      s.total_requests ≤ (stepOp s op).total_requests ∧
      s.successful_validations ≤ (stepOp s op).successful_validations) ∧
    (∀ (s : VState) (sid req : String),
      (stepOp s (.submit sid req)).total_requests = s.total_requests + 1 ∧
      (stepOp s (.submit sid req)).successful_validations =
        s.successful_validations) ∧
    (∀ (s : VState) (sids : List String) (req : String),
      (stepOp s (.submitBulk sids req)).total_requests =
        s.total_requests + sids.length ∧
      (stepOp s (.submitBulk sids req)).successful_validations =
        s.successful_validations) ∧
    (∀ s : VState,
      (stepOp s .process).successful_validations ≤
        s.successful_validations + s.queue.length ∧
      (stepOp s .process).total_requests = s.total_requests) := by
  refine ⟨?_, ?_, ?_, ?_, ?_⟩
  · intro s hr
    have := reachable_inv hr
    omega
  · intro s op
    cases op with
    | register u => simp [stepOp, register_university]
    | submit sid req =>
      simp [stepOp, request_validation]
    | submitBulk sids req =>
      simp [stepOp, request_validations_bulk_spec]
    | process =>
      simp only [stepOp, process_validations]
      by_cases hq : s.queue = []
      · simp [hq]
      · have hfst := runQueue_fst s.universities s.total_requests s.queue
          s.successful_validations s.history
        simp [hq, hfst]
    | analytics => simp [stepOp]
    | exportReport => simp [stepOp]
    | mutateStores unis => simp [stepOp]
  · intro s sid req
    exact ⟨rfl, rfl⟩
  · intro s sids req
    rw [show stepOp s (.submitBulk sids req) =
      request_validations_bulk s sids req from rfl,
      request_validations_bulk_spec]
    exact ⟨rfl, rfl⟩
  · intro s
    simp only [stepOp, process_validations]
    by_cases hq : s.queue = []
    · simp [hq]
    · have hfst := runQueue_fst s.universities s.total_requests s.queue
        s.successful_validations s.history
      have hle : countFound s.universities s.queue ≤ s.queue.length :=
        List.length_filter_le _ _
      simp [hq, hfst]
      omega

/-- Witness for C10 at the freshly initialised system and a concrete submit. -/
theorem claim_C10_witness :
    initState.successful_validations ≤ initState.total_requests ∧
    (stepOp initState (SysOp.submit "S1" "Google")).total_requests =
      initState.total_requests + 1 ∧
    (stepOp initState (SysOp.submit "S1" "Google")).successful_validations =
      initState.successful_validations :=
  ⟨claim_C10_counters.1 initState Reachable.init,
    (claim_C10_counters.2.2.1 initState "S1" "Google").1,
    (claim_C10_counters.2.2.1 initState "S1" "Google").2⟩
